import Mathlib

/-!
Shallow embedding of the `vrp_optimizer` Python repository
(config.py, scheduler.py, solver.py, depot_selector.py, report.py),
together with theorems settling the frozen claims about it.

Monetary and weight quantities that Python holds as floats are modelled
as exact rationals (`ℚ`); integer-cent quantities are `ℤ`.  External
collaborators (the OR-Tools solver, the Google distance matrices, the
great-circle distance function, which is transcendental) are modelled as
explicit parameters; everything the repository itself computes is
translated definition-by-definition from the source.
-/

namespace VRP

/-! ## config.py -/

def MAX_LEGAL_PAYLOAD_LBS : ℤ := 6000
def TARGET_DAILY_PAYLOAD_LBS : ℤ := 4000

def DRIVER_WAGE_PER_HOUR : ℚ := 24
def OT_MULTIPLIER : ℚ := 3 / 2
def OT_WEEKLY_THRESHOLD_HOURS : ℚ := 44

def TRUCK_LEASE_MONTHLY : ℚ := 2077
def INSURANCE_ANNUAL : ℚ := 8166
def FUEL_PER_KM : ℚ := 25 / 100
def MAINTENANCE_PER_KM : ℚ := 5 / 100
def MILEAGE_PER_KM : ℚ := 9 / 100
def VARIABLE_COST_PER_KM : ℚ := FUEL_PER_KM + MAINTENANCE_PER_KM + MILEAGE_PER_KM

def TRUCK_FIXED_ANNUAL : ℚ := TRUCK_LEASE_MONTHLY * 12 + INSURANCE_ANNUAL
def TRUCK_FIXED_DAILY : ℚ := TRUCK_FIXED_ANNUAL / 365
def TRUCK_FIXED_WEEKLY : ℚ := TRUCK_FIXED_ANNUAL / 52
/-- `int(TRUCK_FIXED_DAILY * 100)`: Python `int()` truncates toward zero;
the value is positive so this is the floor. -/
def TRUCK_FIXED_COST_SOLVER : ℤ := ⌊TRUCK_FIXED_DAILY * 100⌋

def REVENUE_PER_LB : ℚ := 30 / 100

def MAX_SHIFT_HOURS : ℤ := 12
def MAX_SHIFT_MINUTES : ℤ := MAX_SHIFT_HOURS * 60
def TOTAL_BREAK_MINUTES : ℤ := 60
def EFFECTIVE_DRIVING_MINUTES : ℤ := MAX_SHIFT_MINUTES - TOTAL_BREAK_MINUTES

def AVERAGE_SPEED_KMH : ℚ := 40

/-- `FREQUENCY_DAY_PATTERNS.get(freq)`.  The dict maps `"D5"` explicitly to
`None` and is missing unrecognized keys; Python's `.get` returns `None` in
both cases, so both are modelled as `none`. -/
def FREQUENCY_DAY_PATTERNS (freq : String) : Option (List ℕ) :=
  if freq = "D1" then some [0, 1, 2, 3, 4, 5, 6]
  else if freq = "D2" then some [0, 1, 2, 3, 4, 5, 6]
  else if freq = "D3" then some [1, 3]
  else if freq = "D4" then some [0, 2, 4]
  else none

/-! ## Python numeric helpers -/

/-- Python 3 `round` to the nearest integer: round-half-to-even. -/
def pyRound (q : ℚ) : ℤ :=
  let f : ℤ := ⌊q⌋
  let r : ℚ := q - f
  if r < 1 / 2 then f
  else if 1 / 2 < r then f + 1
  else if f % 2 = 0 then f else f + 1

/-- Python `round(x, 1)`: round-half-to-even at one decimal place. -/
def pyRound1 (q : ℚ) : ℚ := (pyRound (q * 10) : ℚ) / 10

/-! ## scheduler.py -/

/-- The site record, with the fields the scheduler and solver read. -/
structure Site where
  id : ℕ
  frequency : String
  demandLbs : ℚ
  netContributionPerVisit : ℚ
  serviceTimeMinutes : ℕ
  address : String
  depot : String
deriving DecidableEq, Repr, Inhabited

/-- `assign_weekly_day(site_id, num_weekdays)`. -/
def assign_weekly_day (siteId : ℕ) (numWeekdays : ℕ := 5) : ℕ :=
  siteId % numWeekdays

/-- One scheduled visit dict produced by `get_daily_site_list`. -/
structure Visit where
  site : Site
  visitDemandLbs : ℚ
  visitNumber : ℕ
  nodeLabel : String
deriving DecidableEq, Repr, Inhabited

/-- The body of the per-site loop of `get_daily_site_list`: the visit
dicts appended for one site on one day. -/
def siteVisits (site : Site) (dayOfWeek : ℕ) (isHoliday : Bool) : List Visit :=
  let pattern := FREQUENCY_DAY_PATTERNS site.frequency
  let shouldVisit : Bool :=
    match pattern with
    | some p => dayOfWeek ∈ p
    | none =>
      if site.frequency = "D5" then
        dayOfWeek = assign_weekly_day site.id 7
      else
        dayOfWeek = assign_weekly_day site.id 7
  if ¬shouldVisit then []
  else if isHoliday ∧ site.netContributionPerVisit ≤ 0 then []
  else if site.frequency = "D2" then
    let halfDemand := site.demandLbs / 2
    [⟨site, halfDemand, 1, (site.address.take 40) ++ " (visit 1)"⟩,
     ⟨site, halfDemand, 2, (site.address.take 40) ++ " (visit 2)"⟩]
  else
    [⟨site, site.demandLbs, 1, site.address.take 40⟩]

/-- `get_daily_site_list(sites, day_of_week, week_number, is_holiday)`.
(`week_number` is accepted and unused, exactly as in the source.) -/
def get_daily_site_list (sites : List Site) (dayOfWeek : ℕ)
    (_weekNumber : ℕ := 0) (isHoliday : Bool := false) : List Visit :=
  sites.flatMap (fun s => siteVisits s dayOfWeek isHoliday)

/-- `get_weekly_schedule(sites, week_number, holidays)`: the 7 daily lists,
day 0 = Monday .. day 6 = Sunday. -/
def get_weekly_schedule (sites : List Site) (weekNumber : ℕ := 0)
    (holidays : List ℕ := []) : List (List Visit) :=
  (List.range 7).map (fun day =>
    get_daily_site_list sites day weekNumber (day ∈ holidays))

/-! ## solver.py — `solve_daily_vrp`

Node 0 is the depot; nodes `1 .. visits.length` correspond to the input
visits in order.  The distance / time / cost matrices come from
`build_google_matrices` + `build_cost_matrix` (external Google Maps data),
so they are parameters here.  The OR-Tools solver itself is external: its
output is modelled as either infeasibility or, per vehicle, the node path
walked from the vehicle start to its end (the source walks
`routing.Start(v)` to `routing.IsEnd`, so each path starts at the depot
node 0), plus the list of nodes that route to themselves (dropped by a
disjunction). -/

/-- The outcome of `routing.SolveWithParameters`. -/
inductive SolverOutcome where
  | infeasible : SolverOutcome
  | solution (paths : List (List ℕ)) (selfLoops : List ℕ) : SolverOutcome

/-- One stop dict of an extracted route. -/
structure Stop where
  node : ℕ
  visit : Visit
  demand : ℤ
  serviceTime : ℕ
deriving DecidableEq, Repr

/-- One `route_info` dict. -/
structure RouteInfo where
  vehicleId : ℕ
  stops : List Stop
  numStops : ℕ
  totalLbs : ℤ
  totalKm : ℚ
  totalMinutes : ℤ
  costCents : ℤ
deriving DecidableEq, Repr

/-- The `stats` dict. -/
structure Stats where
  trucksUsed : ℕ
  totalLbs : ℤ
  totalKm : ℚ
  totalMinutes : ℤ
  totalCostCents : ℤ
deriving DecidableEq, Repr

/-- The solution dict returned by `solve_daily_vrp`. -/
structure DaySolution where
  routes : List RouteInfo
  dropped : List Visit
  stats : Stats
deriving DecidableEq, Repr

section Solver

/- `dist_matrix`, `time_matrix`, `cost_matrix` (externally built). -/
variable (dist : ℕ → ℕ → ℚ) (timeM : ℕ → ℕ → ℤ) (cost : ℕ → ℕ → ℤ)
variable (visits : List Visit)

/-- `demands[n]`: 0 at the depot, `int(round(v["visit_demand_lbs"]))` at
visit nodes. -/
def demandAt (n : ℕ) : ℤ :=
  (0 :: visits.map (fun v => pyRound v.visitDemandLbs)).getD n 0

/-- `service_times[n]`: 0 at the depot, the site's service minutes at
visit nodes. -/
def serviceAt (n : ℕ) : ℕ :=
  (0 :: visits.map (fun v => v.site.serviceTimeMinutes)).getD n 0

/-- `visit_refs[n]` (only consulted at visit nodes `1 ≤ n ≤ N`). -/
def refAt (n : ℕ) : Visit :=
  visits.getD (n - 1) default

/-- The arcs traversed by the extraction loop for one vehicle: from each
visited index to its successor, the last one returning to the depot end
node (node 0). -/
def pathArcs (p : List ℕ) : List (ℕ × ℕ) :=
  p.zip (p.drop 1 ++ [0])

/-- `route_km` accumulated along a vehicle's walk. -/
def routeKm (p : List ℕ) : ℚ :=
  ((pathArcs p).map (fun a => dist a.1 a.2)).sum

/-- `route_minutes`: per arc, travel time plus the service time of the
from-node. -/
def routeMinutes (p : List ℕ) : ℤ :=
  ((pathArcs p).map (fun a => timeM a.1 a.2 + (serviceAt visits a.1 : ℤ))).sum

/-- `route_cost`: arc costs accumulated along the walk. -/
def routeCost (p : List ℕ) : ℤ :=
  ((pathArcs p).map (fun a => cost a.1 a.2)).sum

/-- `route_nodes`: the non-depot nodes collected along the walk. -/
def routeNodes (p : List ℕ) : List ℕ :=
  p.filter (fun n => n ≠ 0)

/-- The stop dicts of one vehicle's route. -/
def routeStops (p : List ℕ) : List Stop :=
  (routeNodes p).map (fun n =>
    ⟨n, refAt visits n, demandAt visits n, serviceAt visits n⟩)

/-- `route_lbs`: demands accumulated over the non-depot nodes. -/
def routeLbs (p : List ℕ) : ℤ :=
  ((routeNodes p).map (fun n => demandAt visits n)).sum

/-- `route_revenue_cents`: net contribution per visit × 100 summed over
the stops (a float sum in the source, exact here). -/
def routeRevenueCents (p : List ℕ) : ℚ :=
  ((routeStops visits p).map
    (fun st => st.visit.site.netContributionPerVisit * 100)).sum

/-- Extraction of one vehicle: either a kept `route_info` or the list of
visits dropped by the route-level profitability gate. -/
def vehicleExtract (vehicleId : ℕ) (p : List ℕ) :
    Option RouteInfo × List Visit :=
  let rn := routeStops visits p
  if rn = [] then (none, [])
  else
    let routeRevenue := routeRevenueCents visits p
    let routeTotalCost := routeCost cost p + TRUCK_FIXED_COST_SOLVER
    if routeRevenue < (routeTotalCost : ℚ) then
      -- Unprofitable route — drop all stops
      (none, rn.map (fun st => st.visit))
    else
      (some ⟨vehicleId, rn, rn.length, routeLbs visits p,
             pyRound1 (routeKm dist p), routeMinutes timeM visits p,
             routeCost cost p + TRUCK_FIXED_COST_SOLVER⟩, [])

/-- Whether a vehicle's route passes the profitability gate (nonempty and
revenue covers cost); the kept routes are exactly these. -/
def keepsRoute (p : List ℕ) : Bool :=
  routeStops visits p ≠ [] ∧
    ¬ routeRevenueCents visits p <
        ((routeCost cost p + TRUCK_FIXED_COST_SOLVER : ℤ) : ℚ)

/-- The extraction phase of `solve_daily_vrp`: fold over the vehicles
(the sequential accumulation of the source loop, stated compositionally),
then append the disjunction-dropped nodes. -/
def extractSolution (paths : List (List ℕ)) (selfLoops : List ℕ) :
    DaySolution :=
  let routes := paths.enum.filterMap
    (fun ip => (vehicleExtract dist timeM cost visits ip.1 ip.2).1)
  let droppedGate := paths.enum.flatMap
    (fun ip => (vehicleExtract dist timeM cost visits ip.1 ip.2).2)
  let dropped := droppedGate ++ selfLoops.map (fun n => refAt visits n)
  let kept := paths.filter (fun p => keepsRoute cost visits p)
  { routes := routes
    dropped := dropped
    stats :=
      { trucksUsed := routes.length
        totalLbs := (kept.map (fun p => routeLbs visits p)).sum
        totalKm := pyRound1 ((kept.map (fun p => routeKm dist p)).sum)
        totalMinutes := (kept.map (fun p => routeMinutes timeM visits p)).sum
        totalCostCents :=
          (kept.map
            (fun p => routeCost cost p + TRUCK_FIXED_COST_SOLVER)).sum } }

/-- `solve_daily_vrp(depot_key, visits)`: empty input and infeasibility
short-circuit; otherwise extract the solver's solution. -/
def solve_daily_vrp (outcome : SolverOutcome) : DaySolution :=
  if visits = [] then ⟨[], [], ⟨0, 0, 0, 0, 0⟩⟩
  else
    match outcome with
    | .infeasible => ⟨[], visits, ⟨0, 0, 0, 0, 0⟩⟩
    | .solution paths selfLoops =>
        extractSolution dist timeM cost visits paths selfLoops

/-- The capacity dimension registered with the solver: cumulative demand
along a vehicle's path, starting from zero with no slack, stays within
`TARGET_DAILY_PAYLOAD_LBS`. -/
def CapacityFeasible (p : List ℕ) : Prop :=
  (p.map (fun n => demandAt visits n)).sum ≤ TARGET_DAILY_PAYLOAD_LBS

/-- The time dimension registered with the solver: travel-plus-service
transit along the path, plus a slack of up to 30 minutes per arc, stays
within `EFFECTIVE_DRIVING_MINUTES`. -/
def TimeFeasible (p : List ℕ) : Prop :=
  ∃ slack : List ℤ, slack.length = (pathArcs p).length ∧
    (∀ s ∈ slack, 0 ≤ s ∧ s ≤ 30) ∧
    routeMinutes timeM visits p + slack.sum ≤ EFFECTIVE_DRIVING_MINUTES

/-- The routing-model guarantee on a returned solution: every visit node
`1 .. N` lies on exactly one vehicle path exactly once, or is dropped by
its disjunction (routes to itself), never both. -/
def NodesPartitioned (paths : List (List ℕ)) (selfLoops : List ℕ)
    (n : ℕ) : Prop :=
  (paths.flatMap routeNodes ++ selfLoops).Perm (List.range' 1 n)

end Solver

/-! ## depot_selector.py -/

/-- Python `dict` lookup for a dict built by inserting the pairs of `l`
in order (a later insertion with the same key overwrites an earlier
one). -/
def pyGet {κ α : Type} [DecidableEq κ] (l : List (κ × α)) (k : κ) :
    Option α :=
  ((l.filter (fun p => p.1 = k)).getLast?).map (fun p => p.2)

/-- Stable insertion used to model Python's stable `sorted`. -/
def pyInsert {α : Type} (le : α → α → Bool) (a : α) : List α → List α
  | [] => [a]
  | b :: bs => if le b a then b :: pyInsert le a bs else a :: b :: bs

/-- Python's `sorted(l, key=...)`: a stable sort by the given `≤` test
(the source relies only on ordering and stability, both of which this
insertion sort provides). -/
def pySorted {α : Type} (le : α → α → Bool) (l : List α) : List α :=
  l.foldl (fun acc a => pyInsert le a acc) []

/-- The depot config fields `depot_selector` reads: `max_trucks` and
whether `lat`/`lon` have been geocoded. -/
structure DepotInfo where
  maxTrucks : ℕ
  hasCoords : Bool
deriving DecidableEq, Repr, Inhabited

/-- The site dict fields `depot_selector` reads (a view of the same site
record as `Site`, restricted to this component's fields). -/
structure DSite where
  id : ℕ
  depot : String
  hasCoords : Bool
  weeklyVisits : ℚ
  revenuePerVisit : ℚ
  lbsPerVisit : ℚ
deriving DecidableEq, Repr, Inhabited

/-- `_estimate_depot_pnl`'s returned dict. -/
structure Pnl where
  depot : String
  numSites : ℕ
  weeklyRevenue : ℚ
  fixedCost : ℚ
  variableCost : ℚ
  netProfit : ℚ
  totalWeeklyLbs : ℚ
deriving DecidableEq, Repr, Inhabited

section DepotSelector

/- `_haversine_km` between a site's and a depot's coordinates.  The
great-circle formula is transcendental (sin/cos/asin/sqrt over ℝ), so the
resulting site-to-depot distance is abstracted as a parameter keyed by
site id and depot key; only sites and depots with coordinates ever have
it evaluated. -/
variable (distKm : ℕ → String → ℚ)

/-- `_estimate_depot_pnl(depot_key, depot_info, assigned_sites)`. -/
def estimateDepotPnl (depotKey : String) (info : DepotInfo)
    (assigned : List DSite) : Pnl :=
  if assigned = [] then
    ⟨depotKey, 0, 0, 0, 0, 0, 0⟩
  else
    let fixedCost : ℚ := (info.maxTrucks : ℚ) * TRUCK_FIXED_WEEKLY
    let totalWeeklyRevenue : ℚ :=
      (assigned.map (fun s => s.revenuePerVisit * s.weeklyVisits)).sum
    let totalWeeklyLbs : ℚ :=
      (assigned.map (fun s => s.lbsPerVisit * s.weeklyVisits)).sum
    let totalVariableCost : ℚ :=
      (assigned.map (fun s =>
        if s.hasCoords ∧ info.hasCoords then
          -- est_km_per_visit = dist * 1.3; driving cost + driver time cost
          let estKmPerVisit := distKm s.id depotKey * (13 / 10)
          let drivingCost := estKmPerVisit * VARIABLE_COST_PER_KM
          let driveHours := estKmPerVisit / AVERAGE_SPEED_KMH
          let driverCost := driveHours * DRIVER_WAGE_PER_HOUR
          (drivingCost + driverCost) * s.weeklyVisits
        else 0)).sum
    ⟨depotKey, assigned.length, totalWeeklyRevenue, fixedCost,
     totalVariableCost,
     totalWeeklyRevenue - fixedCost - totalVariableCost, totalWeeklyLbs⟩

/-- `_get_sorted_depot_distances(site, depots_dict)`. -/
def getSortedDepotDistances (site : DSite)
    (depots : List (String × DepotInfo)) : List (String × ℚ) :=
  pySorted (fun a b => a.2 ≤ b.2)
    ((depots.filter (fun kd => kd.2.hasCoords ∧ site.hasCoords)).map
      (fun kd => (kd.1, distKm site.id kd.1)))

/-- `_get_sites_by_depot()[dk]`: the dict is keyed by the open depots;
a site is listed under its assigned depot when that depot is open. -/
def getSitesByDepot (opens : List String) (sites : List DSite)
    (dk : String) : List DSite :=
  if dk ∈ opens then sites.filter (fun s => s.depot = dk) else []

/-- `_compute_network_profit()`: total estimated profit and the per-depot
P&L snapshot over the currently open depots. -/
def computeNetworkProfit (depots : List (String × DepotInfo))
    (opens : List String) (sites : List DSite) :
    ℚ × List (String × Pnl) :=
  let pnl := opens.map (fun dk =>
    (dk, estimateDepotPnl distKm dk ((pyGet depots dk).getD default)
          (getSitesByDepot opens sites dk)))
  ((pnl.map (fun p => p.2.netProfit)).sum, pnl)

/-- The mutable state of `select_depots`' greedy-closure loop. -/
structure SelState where
  opens : List String
  closed : List (String × String)
  pnl : List (String × Pnl)
  profit : ℚ
  sites : List DSite
deriving DecidableEq, Repr

/-- The outcome of one iteration of the closure loop: either the loop
halts with a final state (no candidate, or a rejected-and-reverted
simulation), or it commits a closure and continues. -/
inductive StepResult where
  | halt (st : SelState)
  | commit (worstKey : String) (st : SelState)
deriving DecidableEq, Repr

/-- `ranked`/`candidates`: the open depots' P&L entries sorted worst
first, the non-closable main warehouse (`"wh"`) excluded. -/
def closureCandidates (pnl : List (String × Pnl)) : List (String × Pnl) :=
  (pySorted (fun a b => a.2.netProfit ≤ b.2.netProfit) pnl).filter
    (fun kp => kp.1 ≠ "wh")

/-- The simulated reassignment map `{site_id: new_depot}`: each affected
site goes to the nearest still-open depot other than the closing one;
sites with no such depot are orphaned (absent from the map). -/
def closureReassignments (dists : ℕ → List (String × ℚ))
    (opens : List String) (sites : List DSite) (worstKey : String) :
    List (ℕ × String) :=
  (getSitesByDepot opens sites worstKey).filterMap (fun s =>
    ((dists s.id).find? (fun dkd =>
        dkd.1 ∈ opens ∧ dkd.1 ≠ worstKey)).map (fun dkd => (s.id, dkd.1)))

/-- `old_depots`: the pre-simulation assignment of every reassigned
site, recorded before mutation. -/
def closureOldDepots (sites : List DSite) (re : List (ℕ × String)) :
    List (ℕ × String) :=
  (sites.filter (fun s => (pyGet re s.id).isSome)).map
    (fun s => (s.id, s.depot))

/-- Apply the simulated reassignments to the site list. -/
def applyReassignments (sites : List DSite) (re : List (ℕ × String)) :
    List DSite :=
  sites.map (fun s =>
    match pyGet re s.id with
    | some nd => { s with depot := nd }
    | none => s)

/-- Restore the recorded pre-simulation assignments (the revert on a
rejected closure). -/
def revertReassignments (sites : List DSite) (old : List (ℕ × String)) :
    List DSite :=
  sites.map (fun s =>
    match pyGet old s.id with
    | some od => { s with depot := od }
    | none => s)

/-- The body of one loop iteration, given the computed candidate list:
halt when no candidate exists; otherwise simulate closing the worst
candidate and either commit (profit strictly improves) or revert and
halt. -/
def closureStepAux (depots : List (String × DepotInfo))
    (dists : ℕ → List (String × ℚ)) (st : SelState) :
    List (String × Pnl) → StepResult
  | [] => .halt st
  | (worstKey, _) :: _ =>
    -- Simulate closure: reassign sites to next-nearest open depot
    let reassignments := closureReassignments dists st.opens st.sites worstKey
    let oldDepots := closureOldDepots st.sites reassignments
    let simSites := applyReassignments st.sites reassignments
    let opens2 := st.opens.erase worstKey
    let np := computeNetworkProfit distKm depots opens2 simSites
    if st.profit < np.1 then
      -- Closure improves profit — keep it closed
      .commit worstKey
        ⟨opens2,
         st.closed ++ [(worstKey,
           "Closing saves $" ++ toString (np.1 - st.profit) ++ "/week; " ++
           toString reassignments.length ++ " sites reassigned")],
         np.2, np.1, simSites⟩
    else
      -- Closure hurts profit — revert and stop
      .halt
        ⟨worstKey :: opens2, st.closed, st.pnl, st.profit,
         revertReassignments simSites oldDepots⟩

/-- One iteration of `select_depots`' `while True` loop.  `dists` is the
precomputed `site_depot_dists` map. -/
def closureStep (depots : List (String × DepotInfo))
    (dists : ℕ → List (String × ℚ)) (st : SelState) : StepResult :=
  closureStepAux distKm depots dists st (closureCandidates st.pnl)

/-- The `while True` loop of `select_depots`.  Each committed closure
removes one open depot, so `opens.length + 1` iterations of fuel always
suffice; the fuel-exhausted base case is unreachable from `select_depots`
but returns the state unchanged. -/
def closureLoop (depots : List (String × DepotInfo))
    (dists : ℕ → List (String × ℚ)) : ℕ → SelState → SelState
  | 0, st => st
  | fuel + 1, st =>
    match closureStep distKm depots dists st with
    | .halt stOut => stOut
    | .commit _ stNext => closureLoop depots dists fuel stNext

/-- `select_depots(sites, depots)`: initial state has every depot open,
then the greedy closure loop runs; the final state carries the open set,
the closure reasons, the P&L snapshot, and the (possibly reassigned)
sites. -/
def select_depots (sites : List DSite)
    (depots : List (String × DepotInfo)) : SelState :=
  let opens := depots.map (fun kd => kd.1)
  let dists : ℕ → List (String × ℚ) := fun sid =>
    (pyGet (sites.map (fun s =>
      (s.id, getSortedDepotDistances distKm s depots))) sid).getD []
  let init := computeNetworkProfit distKm depots opens sites
  closureLoop distKm depots dists (opens.length + 1)
    ⟨opens, [], init.2, init.1, sites⟩

end DepotSelector

/-! ## report.py — `print_depot_pnl` and the weekly-summary driver cost -/

/-- The `stats` dict of one depot-day result, as read by the report. -/
structure DayStats where
  trucksUsed : ℕ
  totalLbs : ℤ
  totalKm : ℚ
  totalMinutes : ℤ
deriving DecidableEq, Repr

/-- One per-depot entry of the post-solve profitability report. -/
structure DepotPnl where
  status : String
  lbs : ℤ
  km : ℚ
  hours : ℚ
  trucks : ℕ
  revenue : ℚ
  driverCost : ℚ
  variableVehicle : ℚ
  fixedCost : ℚ
  totalCost : ℚ
  netProfit : ℚ
deriving DecidableEq, Repr

/-- The week's depot-day stats for one depot, in day order (days where
the depot has no entry are skipped, as in the source). -/
def depotDayStats (weekly : List (List (String × DayStats)))
    (dk : String) : List DayStats :=
  weekly.filterMap (fun dayData => pyGet dayData dk)

/-- The per-depot body of `print_depot_pnl`: aggregates the depot's week
and prices it.  Driver cost is `hours × wage`, flat. -/
def depotPnlEntry (weekly : List (List (String × DayStats)))
    (dk : String) : DepotPnl :=
  let sl := depotDayStats weekly dk
  let depotLbs : ℤ := (sl.map (fun s => s.totalLbs)).sum
  let depotKm : ℚ := (sl.map (fun s => s.totalKm)).sum
  let depotMinutes : ℤ := (sl.map (fun s => s.totalMinutes)).sum
  let depotTrucksMax : ℕ := sl.foldl (fun m s => max m s.trucksUsed) 0
  let depotHours : ℚ := (depotMinutes : ℚ) / 60
  -- Fleet = max trucks used on any day
  let fleet := depotTrucksMax
  let revenue : ℚ := (depotLbs : ℚ) * REVENUE_PER_LB
  let fuelCost := depotKm * FUEL_PER_KM
  let maintCost := depotKm * MAINTENANCE_PER_KM
  let mileageCost := depotKm * MILEAGE_PER_KM
  let variableVehicle := fuelCost + maintCost + mileageCost
  let driverCost := depotHours * DRIVER_WAGE_PER_HOUR
  let fixedCost := TRUCK_FIXED_WEEKLY * (fleet : ℚ)
  let totalCost := driverCost + variableVehicle + fixedCost
  let netProfit := revenue - totalCost
  let status := if netProfit < 0 then "MARGINAL — consider closing" else "KEEP"
  ⟨status, depotLbs, depotKm, depotHours, fleet, revenue, driverCost,
   variableVehicle, fixedCost, totalCost, netProfit⟩

/-- The driver-cost block of `print_weekly_summary` (network level):
total driven hours are spread evenly across the whole fleet (the sum of
per-depot peak trucks) and hours beyond the weekly threshold per truck
are charged at the overtime multiplier. -/
def weeklySummaryDriverTotal (totalHours : ℚ) (totalFleetSize : ℕ) : ℚ :=
  let avgHoursPerTruck :=
    if 0 < totalFleetSize then totalHours / (totalFleetSize : ℚ) else 0
  let perTruckOt := max 0 (avgHoursPerTruck - OT_WEEKLY_THRESHOLD_HOURS)
  let totalOtHours := perTruckOt * (totalFleetSize : ℚ)
  let driverRegular := (totalHours - totalOtHours) * DRIVER_WAGE_PER_HOUR
  let driverOt := totalOtHours * DRIVER_WAGE_PER_HOUR * OT_MULTIPLIER
  driverRegular + driverOt

/-- Modelled from the spec (claim C9's formula, not repository code):
per-depot driver cost with an overtime surcharge above the weekly
threshold, computed by spreading the depot's driven hours evenly across
its peak concurrently-used trucks.  Used only to compare the claim
against the source's `print_depot_pnl`. -/
def claimDepotDriverCost (hours : ℚ) (peakTrucks : ℕ) : ℚ :=
  let avg := if 0 < peakTrucks then hours / (peakTrucks : ℚ) else 0
  let perTruckOt := max 0 (avg - OT_WEEKLY_THRESHOLD_HOURS)
  let otHours := perTruckOt * (peakTrucks : ℚ)
  (hours - otHours) * DRIVER_WAGE_PER_HOUR +
    otHours * DRIVER_WAGE_PER_HOUR * OT_MULTIPLIER

/-! ## Concrete instances used by the witnesses -/

/-- A distance matrix that is zero everywhere (witness instances). -/
def exDist : ℕ → ℕ → ℚ := fun _ _ => 0

/-- A time matrix that is zero everywhere (witness instances). -/
def exTime : ℕ → ℕ → ℤ := fun _ _ => 0

/-- A cost matrix that is zero everywhere (witness instances). -/
def exCost : ℕ → ℕ → ℤ := fun _ _ => 0

/-- A concrete profitable site (witness instances). -/
def exSite : Site := ⟨1, "D5", 100, 1000, 10, "addr", "wh"⟩

/-- A concrete visit of `exSite` (witness instances). -/
def exVisit : Visit := ⟨exSite, 100, 1, "L"⟩

/-- A site-to-depot distance oracle that is zero everywhere. -/
def exDistKm : ℕ → String → ℚ := fun _ _ => 0

/-- A two-depot configuration (witness instances). -/
def exDepots : List (String × DepotInfo) := [("wh", ⟨1, true⟩), ("a", ⟨1, true⟩)]

/-- The all-zero P&L record the estimator returns for an empty depot. -/
def exZeroPnl (dk : String) : Pnl := ⟨dk, 0, 0, 0, 0, 0, 0⟩

/-- A closure-loop state with no sites at all: the sole candidate
depot has an all-zero estimate, so its simulated closure is rejected. -/
def exState : SelState :=
  ⟨["wh", "a"], [], [("a", exZeroPnl "a")], 0, []⟩

/-- The state `exState`'s rejected iteration halts in: the candidate is
re-opened and nothing else changed. -/
def exHalt : SelState :=
  ⟨["a", "wh"], [], [("a", exZeroPnl "a")], 0, []⟩

/-- An empty precomputed site-to-depot distance table. -/
def exDists : ℕ → List (String × ℚ) := fun _ => []

/-- Weekly results with one depot-day: one truck, 5280 driven minutes
(88 hours, twice the 44-hour overtime threshold). -/
def exWeekly : List (List (String × DayStats)) := [[("wh", ⟨1, 1000, 100, 5280⟩)]]

/-! ## Theorems — Weekly Scheduler (claims C7, C8) -/

/-- Every visit dict a site's loop body emits references that site. -/
lemma site_of_mem_siteVisits {s : Site} {d : ℕ} {hol : Bool} {v : Visit}
    (hv : v ∈ siteVisits s d hol) : v.site = s := by
  simp only [siteVisits, List.mem_ite_nil_left] at hv
  obtain ⟨-, -, hv⟩ := hv
  by_cases hD2 : s.frequency = "D2"
  · rw [if_pos hD2] at hv
    simp only [List.mem_cons, List.not_mem_nil, or_false] at hv
    rcases hv with rfl | rfl <;> rfl
  · rw [if_neg hD2] at hv
    simp only [List.mem_cons, List.not_mem_nil, or_false] at hv
    rcases hv with rfl
    rfl

/-- Filtering one site's emitted visits by another site keeps all or
none. -/
lemma filter_siteVisits (t s : Site) (d : ℕ) (hol : Bool) :
    (siteVisits t d hol).filter (fun v => v.site = s) =
      if t = s then siteVisits s d hol else [] := by
  by_cases hts : t = s
  · subst hts
    simp only [if_pos rfl]
    exact List.filter_eq_self.2 (fun v hv => by
      simp [site_of_mem_siteVisits hv])
  · simp only [if_neg hts]
    refine List.filter_eq_nil_iff.2 (fun v hv => ?_)
    have := site_of_mem_siteVisits hv
    simp [this, hts]

/-- In a site list where `s` occurs exactly once, the daily visit list
filtered to `s` is exactly `s`'s own loop-body output. -/
lemma filter_get_daily_site_list (sites : List Site) (s : Site) (d w : ℕ)
    (hol : Bool) (hcount : sites.count s = 1) :
    (get_daily_site_list sites d w hol).filter (fun v => v.site = s) =
      siteVisits s d hol := by
  induction sites with
  | nil => simp at hcount
  | cons t ts ih =>
    unfold get_daily_site_list at *
    rw [List.flatMap_cons, List.filter_append, filter_siteVisits]
    by_cases hts : t = s
    · subst hts
      rw [List.count_cons_self] at hcount
      have hnot : ts.count t = 0 := by omega
      have hts0 : t ∉ ts := by
        simpa [List.count_eq_zero] using hnot
      have hrest : (ts.flatMap (fun x => siteVisits x d hol)).filter
          (fun v => v.site = t) = [] := by
        refine List.filter_eq_nil_iff.2 (fun v hv => ?_)
        rcases List.mem_flatMap.1 hv with ⟨u, hu, hvu⟩
        have hvs := site_of_mem_siteVisits hvu
        have hut : u ≠ t := fun h => hts0 (h ▸ hu)
        simp [hvs, hut]
      rw [hrest, if_pos rfl, List.append_nil]
    · rw [List.count_cons_of_ne (fun h => hts h.symm)] at hcount
      rw [if_neg hts, List.nil_append]
      exact ih hcount

/-- C7: a twice-daily (frequency code `D2`) site that is scheduled on a
day (on a holiday: that additionally has positive net contribution)
yields exactly two visit instances in that day's list, numbered 1 and 2,
each carrying half the site's nominal demand; the two demands sum to the
nominal demand. -/
theorem claim_C7 (sites : List Site) (s : Site) (d w : ℕ) (hol : Bool)
    (hcount : sites.count s = 1) (hfreq : s.frequency = "D2")
    (hday : d < 7)
    (hhol : hol = true → 0 < s.netContributionPerVisit) :
    (get_daily_site_list sites d w hol).filter (fun v => v.site = s) =
      [⟨s, s.demandLbs / 2, 1, s.address.take 40 ++ " (visit 1)"⟩,
       ⟨s, s.demandLbs / 2, 2, s.address.take 40 ++ " (visit 2)"⟩] ∧
    s.demandLbs / 2 + s.demandLbs / 2 = s.demandLbs := by
  have hpat : FREQUENCY_DAY_PATTERNS s.frequency =
      some [0, 1, 2, 3, 4, 5, 6] := by
    simp [FREQUENCY_DAY_PATTERNS, hfreq]
  have hmem : d ∈ [0, 1, 2, 3, 4, 5, 6] := by
    interval_cases d <;> simp
  have hnet : ¬ (hol = true ∧ s.netContributionPerVisit ≤ 0) := by
    rintro ⟨h1, h2⟩
    exact absurd (hhol h1) (not_lt.2 h2)
  constructor
  · rw [filter_get_daily_site_list sites s d w hol hcount]
    simp [siteVisits, FREQUENCY_DAY_PATTERNS, hpat, hmem, hnet, hfreq]
  · ring

/-- C7 witness: a concrete twice-daily site evaluated on a Monday. -/
theorem claim_C7_witness :
    (get_daily_site_list
        [⟨1, "D2", 100, 5, 15, "addr", "wh"⟩] 0 0 false).filter
      (fun v => v.site = ⟨1, "D2", 100, 5, 15, "addr", "wh"⟩) =
      [⟨⟨1, "D2", 100, 5, 15, "addr", "wh"⟩, (100 : ℚ) / 2, 1,
        ("addr".take 40) ++ " (visit 1)"⟩,
       ⟨⟨1, "D2", 100, 5, 15, "addr", "wh"⟩, (100 : ℚ) / 2, 2,
        ("addr".take 40) ++ " (visit 2)"⟩] ∧
    (100 : ℚ) / 2 + (100 : ℚ) / 2 = 100 := by
  exact claim_C7 [⟨1, "D2", 100, 5, 15, "addr", "wh"⟩]
    ⟨1, "D2", 100, 5, 15, "addr", "wh"⟩ 0 0 false (by simp) rfl
    (by norm_num) (by intro hcon; exact absurd hcon (by simp))

/-- C8: a Weekly (`D5`) site — or one with an unrecognized frequency
code — appears in the non-holiday weekly schedule on exactly one day,
day `site id mod 7`, as a single full-demand visit; the day assignment
is the pure function `assign_weekly_day` of the site identifier. -/
theorem claim_C8 (sites : List Site) (s : Site) (w : ℕ)
    (hcount : sites.count s = 1)
    (hfreq : FREQUENCY_DAY_PATTERNS s.frequency = none) :
    ((get_weekly_schedule sites w []).map
        (fun dayList => dayList.filter (fun v => v.site = s))) =
      (List.range 7).map (fun d =>
        if d = s.id % 7 then
          [⟨s, s.demandLbs, 1, s.address.take 40⟩] else []) ∧
    assign_weekly_day s.id 7 = s.id % 7 := by
  have hD2 : s.frequency ≠ "D2" := by
    intro h
    rw [h] at hfreq
    simp [FREQUENCY_DAY_PATTERNS] at hfreq
  constructor
  · unfold get_weekly_schedule
    rw [List.map_map]
    refine List.map_congr_left (fun d _ => ?_)
    show (get_daily_site_list sites d w (decide (d ∈ ([] : List ℕ)))).filter
        (fun v => v.site = s) = _
    have hdec : (decide (d ∈ ([] : List ℕ))) = false := by simp
    rw [hdec, filter_get_daily_site_list sites s d w false hcount]
    by_cases hd : d = s.id % 7
    · rw [if_pos hd]
      simp [siteVisits, hfreq, assign_weekly_day, hd, hD2]
    · rw [if_neg hd]
      simp [siteVisits, hfreq, assign_weekly_day, hd]
  · rfl

/-- C8 witness: a concrete Weekly site (id 9, so day `9 % 7 = 2`,
Wednesday) in a one-site catalog. -/
theorem claim_C8_witness :
    ((get_weekly_schedule [⟨9, "D5", 200, 5, 15, "a", "wh"⟩] 0 []).map
        (fun dayList => dayList.filter
          (fun v => v.site = ⟨9, "D5", 200, 5, 15, "a", "wh"⟩))) =
      (List.range 7).map (fun d =>
        if d = 9 % 7 then
          [⟨⟨9, "D5", 200, 5, 15, "a", "wh"⟩, 200, 1, "a".take 40⟩]
        else []) ∧
    assign_weekly_day 9 7 = 9 % 7 := by
  exact claim_C8 [⟨9, "D5", 200, 5, 15, "a", "wh"⟩]
    ⟨9, "D5", 200, 5, 15, "a", "wh"⟩ 0 (by simp)
    (by simp [FREQUENCY_DAY_PATTERNS])

/-! ## Theorems — Daily Routing Engine (claims C1, C2, C3) -/

/-- Fields of a kept route, read off from the extraction of one
vehicle. -/
lemma vehicleExtract_some {dist : ℕ → ℕ → ℚ} {timeM : ℕ → ℕ → ℤ}
    {cost : ℕ → ℕ → ℤ} {visits : List Visit} {i : ℕ} {p : List ℕ}
    {r : RouteInfo}
    (h : (vehicleExtract dist timeM cost visits i p).1 = some r) :
    r.vehicleId = i ∧ r.stops = routeStops visits p ∧
    r.totalLbs = routeLbs visits p ∧
    r.totalMinutes = routeMinutes timeM visits p ∧
    r.costCents = routeCost cost p + TRUCK_FIXED_COST_SOLVER := by
  simp only [vehicleExtract] at h
  split at h
  · simp at h
  · split at h
    · simp at h
    · rw [Option.some.injEq] at h
      subst h
      exact ⟨rfl, rfl, rfl, rfl, rfl⟩

/-- Route membership in the extraction phase. -/
lemma mem_extract_routes {dist : ℕ → ℕ → ℚ} {timeM : ℕ → ℕ → ℤ}
    {cost : ℕ → ℕ → ℤ} {visits : List Visit} {paths : List (List ℕ)}
    {selfLoops : List ℕ} {r : RouteInfo} :
    r ∈ (extractSolution dist timeM cost visits paths selfLoops).routes ↔
      ∃ ip ∈ paths.enum,
        (vehicleExtract dist timeM cost visits ip.1 ip.2).1 = some r := by
  simp [extractSolution, List.mem_filterMap]

/-- Two paths listed under the same vehicle index are the same path. -/
lemma enum_key_inj {α : Type} {l : List α} {i : ℕ} {p q : α}
    (hp : (i, p) ∈ l.enum) (hq : (i, q) ∈ l.enum) : p = q := by
  rw [List.mem_enum_iff_getElem?] at hp hq
  rw [hp] at hq
  exact Option.some_inj.1 hq

/-- C1: the post-solve profitability gate.  For a vehicle whose
extracted route has at least one stop, if the route's summed
net-contribution cents are less than its arc cost plus the fixed
vehicle cost, every stop's visit is moved to the dropped list and no
route of that vehicle is returned; otherwise the route is returned
with `cost_cents` equal to arc cost plus fixed vehicle cost. -/
theorem claim_C1 (dist : ℕ → ℕ → ℚ) (timeM : ℕ → ℕ → ℤ)
    (cost : ℕ → ℕ → ℤ) (visits : List Visit) (paths : List (List ℕ))
    (selfLoops : List ℕ) (i : ℕ) (p : List ℕ)
    (hv : visits ≠ []) (hmem : (i, p) ∈ paths.enum)
    (hne : routeStops visits p ≠ []) :
    (routeRevenueCents visits p <
        ((routeCost cost p + TRUCK_FIXED_COST_SOLVER : ℤ) : ℚ) →
      (∀ st ∈ routeStops visits p, st.visit ∈
        (solve_daily_vrp dist timeM cost visits
          (.solution paths selfLoops)).dropped) ∧
      (∀ r ∈ (solve_daily_vrp dist timeM cost visits
          (.solution paths selfLoops)).routes, r.vehicleId ≠ i)) ∧
    (¬ routeRevenueCents visits p <
        ((routeCost cost p + TRUCK_FIXED_COST_SOLVER : ℤ) : ℚ) →
      ∃ r ∈ (solve_daily_vrp dist timeM cost visits
          (.solution paths selfLoops)).routes,
        r.vehicleId = i ∧ r.stops = routeStops visits p ∧
        r.costCents = routeCost cost p + TRUCK_FIXED_COST_SOLVER) := by
  have hout : solve_daily_vrp dist timeM cost visits
      (.solution paths selfLoops) =
      extractSolution dist timeM cost visits paths selfLoops := by
    simp [solve_daily_vrp, hv]
  constructor
  · intro hlt
    have hvx : vehicleExtract dist timeM cost visits i p =
        (none, (routeStops visits p).map (fun st => st.visit)) := by
      simp only [vehicleExtract]
      rw [if_neg hne, if_pos hlt]
    constructor
    · intro st hst
      rw [hout]
      simp only [extractSolution]
      refine List.mem_append_left _ ?_
      refine List.mem_flatMap.2 ⟨(i, p), hmem, ?_⟩
      rw [hvx]
      exact List.mem_map.2 ⟨st, hst, rfl⟩
    · intro r hr hri
      rw [hout] at hr
      rcases mem_extract_routes.1 hr with ⟨⟨j, q⟩, hjq, hsome⟩
      have hid : r.vehicleId = j := (vehicleExtract_some hsome).1
      have hij : j = i := by rw [← hid, hri]
      subst hij
      have hpq : q = p := enum_key_inj hjq hmem
      subst hpq
      rw [hvx] at hsome
      simp at hsome
  · intro hge
    have hvx : (vehicleExtract dist timeM cost visits i p).1 =
        some ⟨i, routeStops visits p, (routeStops visits p).length,
          routeLbs visits p, pyRound1 (routeKm dist p),
          routeMinutes timeM visits p,
          routeCost cost p + TRUCK_FIXED_COST_SOLVER⟩ := by
      simp only [vehicleExtract]
      rw [if_neg hne, if_neg hge]
    refine ⟨⟨i, routeStops visits p, (routeStops visits p).length,
      routeLbs visits p, pyRound1 (routeKm dist p),
      routeMinutes timeM visits p,
      routeCost cost p + TRUCK_FIXED_COST_SOLVER⟩, ?_, rfl, rfl, rfl⟩
    rw [hout]
    exact mem_extract_routes.2 ⟨(i, p), hmem, hvx⟩

/-- C1 witness: one profitable visit served by vehicle 0; the
profitable branch of the gate fires. -/
theorem claim_C1_witness :
    (routeRevenueCents [exVisit] [0, 1] <
        ((routeCost exCost [0, 1] + TRUCK_FIXED_COST_SOLVER : ℤ) : ℚ) →
      (∀ st ∈ routeStops [exVisit] [0, 1], st.visit ∈
        (solve_daily_vrp exDist exTime exCost [exVisit]
          (.solution [[0, 1]] [])).dropped) ∧
      (∀ r ∈ (solve_daily_vrp exDist exTime exCost [exVisit]
          (.solution [[0, 1]] [])).routes, r.vehicleId ≠ 0)) ∧
    (¬ routeRevenueCents [exVisit] [0, 1] <
        ((routeCost exCost [0, 1] + TRUCK_FIXED_COST_SOLVER : ℤ) : ℚ) →
      ∃ r ∈ (solve_daily_vrp exDist exTime exCost [exVisit]
          (.solution [[0, 1]] [])).routes,
        r.vehicleId = 0 ∧ r.stops = routeStops [exVisit] [0, 1] ∧
        r.costCents = routeCost exCost [0, 1] + TRUCK_FIXED_COST_SOLVER) :=
  claim_C1 exDist exTime exCost [exVisit] [[0, 1]] [] 0 [0, 1]
    (by simp) (by decide) (by simp [routeStops, routeNodes])

/-- One vehicle's kept-route visits and gate-dropped visits together
are exactly the visits of its walked nodes. -/
lemma vehicleExtract_split (dist : ℕ → ℕ → ℚ) (timeM : ℕ → ℕ → ℤ)
    (cost : ℕ → ℕ → ℤ) (visits : List Visit) (i : ℕ) (p : List ℕ) :
    ((vehicleExtract dist timeM cost visits i p).1.elim []
      (fun r => r.stops.map (fun st => st.visit))) ++
      (vehicleExtract dist timeM cost visits i p).2 =
    (routeNodes p).map (fun n => refAt visits n) := by
  by_cases hnil : routeStops visits p = []
  · have hroutes : routeNodes p = [] := by
      have hlen := congrArg List.length hnil
      simpa [routeStops] using hlen
    simp [vehicleExtract, hnil, hroutes]
  · by_cases hlt : routeRevenueCents visits p <
        ((routeCost cost p + TRUCK_FIXED_COST_SOLVER : ℤ) : ℚ)
    · have hvx : vehicleExtract dist timeM cost visits i p =
          (none, (routeStops visits p).map (fun st => st.visit)) := by
        simp only [vehicleExtract]
        rw [if_neg hnil, if_pos hlt]
      rw [hvx]
      show (routeStops visits p).map (fun st => st.visit) = _
      simp [routeStops, List.map_map]
    · have hvx : vehicleExtract dist timeM cost visits i p =
          (some ⟨i, routeStops visits p, (routeStops visits p).length,
            routeLbs visits p, pyRound1 (routeKm dist p),
            routeMinutes timeM visits p,
            routeCost cost p + TRUCK_FIXED_COST_SOLVER⟩, []) := by
        simp only [vehicleExtract]
        rw [if_neg hnil, if_neg hlt]
      rw [hvx]
      show (routeStops visits p).map (fun st => st.visit) ++ [] = _
      simp [routeStops, List.map_map]

/-- Splitting a `flatMap` of appended pieces into two `flatMap`s, up to
permutation. -/
lemma flatMap_append_perm {α β : Type} (E : List α) (F G : α → List β) :
    (E.flatMap (fun a => F a ++ G a)).Perm (E.flatMap F ++ E.flatMap G) := by
  induction E with
  | nil => simp
  | cons a E ih =>
    simp only [List.flatMap_cons]
    have h1 : ((F a ++ G a) ++ E.flatMap (fun a => F a ++ G a)).Perm
        ((F a ++ G a) ++ (E.flatMap F ++ E.flatMap G)) :=
      ih.append_left (F a ++ G a)
    have h2 : ((F a ++ G a) ++ (E.flatMap F ++ E.flatMap G)).Perm
        ((F a ++ E.flatMap F) ++ (G a ++ E.flatMap G)) := by
      rw [List.append_assoc, List.append_assoc]
      refine List.Perm.append_left (F a) ?_
      rw [← List.append_assoc, ← List.append_assoc]
      exact (List.perm_append_comm).append_right (E.flatMap G)
    exact h1.trans h2

/-- A `flatMap` over the image of a `filterMap`, re-expressed over the
original list. -/
lemma flatMap_filterMap_eq {α β γ : Type} (E : List α) (f : α → Option γ)
    (h : γ → List β) :
    (E.filterMap f).flatMap h =
      E.flatMap (fun a => (f a).elim [] h) := by
  induction E with
  | nil => rfl
  | cons a E ih =>
    cases hfa : f a <;> simp [List.filterMap_cons, hfa, ih]

/-- Reading the visit list back off `List.range` indices. -/
lemma map_getD_range (l : List Visit) :
    (List.range l.length).map (fun k => l.getD k default) = l := by
  induction l with
  | nil => rfl
  | cons a t ih =>
    rw [List.length_cons, List.range_succ_eq_map, List.map_cons,
      List.map_map]
    have hpt : ∀ k ∈ List.range t.length,
        ((fun k => (a :: t).getD k default) ∘ Nat.succ) k =
          t.getD k default := by
      intro k _
      rfl
    rw [List.map_congr_left hpt, ih]
    rfl

/-- Reading the visit list back off node indices `1 .. N`. -/
lemma map_refAt_range (visits : List Visit) :
    (List.range' 1 visits.length).map (fun n => refAt visits n) = visits := by
  rw [List.range'_eq_map_range, List.map_map]
  have hpt : ∀ k ∈ List.range visits.length,
      ((fun n => refAt visits n) ∘ (1 + ·)) k = visits.getD k default := by
    intro k _
    show visits.getD (1 + k - 1) default = visits.getD k default
    congr 1
    omega
  rw [List.map_congr_left hpt, map_getD_range]

/-- C2: visit accounting is exhaustive and disjoint.  Whenever the
solver outcome routes every visit node exactly once or self-loops it
(the routing model's guarantee), the returned solution partitions the
input visits between route stops and the dropped list, as a multiset
equality. -/
theorem claim_C2 (dist : ℕ → ℕ → ℚ) (timeM : ℕ → ℕ → ℤ)
    (cost : ℕ → ℕ → ℤ) (visits : List Visit) (paths : List (List ℕ))
    (selfLoops : List ℕ)
    (hok : NodesPartitioned paths selfLoops visits.length) :
    (((solve_daily_vrp dist timeM cost visits
        (.solution paths selfLoops)).routes.flatMap
          (fun r => r.stops.map (fun st => st.visit))) ++
      (solve_daily_vrp dist timeM cost visits
        (.solution paths selfLoops)).dropped).Perm visits := by
  by_cases hv : visits = []
  · subst hv
    simp [solve_daily_vrp]
  · have hout : solve_daily_vrp dist timeM cost visits
        (.solution paths selfLoops) =
        extractSolution dist timeM cost visits paths selfLoops := by
      simp [solve_daily_vrp, hv]
    rw [hout]
    show ((paths.enum.filterMap
          (fun ip => (vehicleExtract dist timeM cost visits
            ip.1 ip.2).1)).flatMap
          (fun r => r.stops.map (fun st => st.visit)) ++
        (paths.enum.flatMap
          (fun ip => (vehicleExtract dist timeM cost visits
            ip.1 ip.2).2) ++
         selfLoops.map (fun n => refAt visits n))).Perm visits
    rw [flatMap_filterMap_eq, ← List.append_assoc]
    have hA : (paths.enum.flatMap (fun ip =>
          ((vehicleExtract dist timeM cost visits ip.1 ip.2).1).elim []
            (fun c => c.stops.map (fun st => st.visit))) ++
        paths.enum.flatMap
          (fun ip => (vehicleExtract dist timeM cost visits
            ip.1 ip.2).2)).Perm
        (paths.enum.flatMap (fun ip =>
          ((vehicleExtract dist timeM cost visits ip.1 ip.2).1).elim []
            (fun c => c.stops.map (fun st => st.visit)) ++
          (vehicleExtract dist timeM cost visits ip.1 ip.2).2)) :=
      (flatMap_append_perm _ _ _).symm
    refine List.Perm.trans (hA.append_right _) ?_
    have hB : paths.enum.flatMap (fun ip =>
        ((vehicleExtract dist timeM cost visits ip.1 ip.2).1).elim []
          (fun c => c.stops.map (fun st => st.visit)) ++
        (vehicleExtract dist timeM cost visits ip.1 ip.2).2) =
        (paths.flatMap routeNodes).map (fun n => refAt visits n) := by
      have hsplit : (fun ip : ℕ × List ℕ =>
          ((vehicleExtract dist timeM cost visits ip.1 ip.2).1).elim []
            (fun c => c.stops.map (fun st => st.visit)) ++
          (vehicleExtract dist timeM cost visits ip.1 ip.2).2) =
          fun ip => (routeNodes ip.2).map (fun n => refAt visits n) :=
        funext fun ip =>
          vehicleExtract_split dist timeM cost visits ip.1 ip.2
      rw [hsplit]
      have henum : paths.enum.flatMap
          (fun ip => (routeNodes ip.2).map (fun n => refAt visits n)) =
          (paths.enum.map Prod.snd).flatMap
            (fun p => (routeNodes p).map (fun n => refAt visits n)) :=
        (List.flatMap_map Prod.snd
          (fun p => (routeNodes p).map (fun n => refAt visits n))
          paths.enum).symm
      rw [henum, List.enum_map_snd, ← List.map_flatMap]
    rw [hB, ← List.map_append]
    have hfin := hok.map (fun n => refAt visits n)
    rw [map_refAt_range] at hfin
    exact hfin

/-- C2 witness: one visit, routed by vehicle 0, none self-looped. -/
theorem claim_C2_witness :
    (((solve_daily_vrp exDist exTime exCost [exVisit]
        (.solution [[0, 1]] [])).routes.flatMap
          (fun r => r.stops.map (fun st => st.visit))) ++
      (solve_daily_vrp exDist exTime exCost [exVisit]
        (.solution [[0, 1]] [])).dropped).Perm [exVisit] :=
  claim_C2 exDist exTime exCost [exVisit] [[0, 1]] []
    (by unfold NodesPartitioned; decide)

/-- Filtering out nodes where the summand vanishes does not change the
sum. -/
lemma sum_map_filter_ne_zero (f : ℕ → ℤ) (hf : f 0 = 0) :
    ∀ p : List ℕ,
      ((p.filter (fun n => n ≠ 0)).map f).sum = (p.map f).sum
  | [] => rfl
  | n :: ns => by
    rw [List.filter_cons]
    by_cases hn : n = 0
    · subst hn
      rw [if_neg (by simp), sum_map_filter_ne_zero f hf ns,
        List.map_cons, List.sum_cons, hf, zero_add]
    · rw [if_pos (by simpa using hn), List.map_cons, List.sum_cons,
        List.map_cons, List.sum_cons, sum_map_filter_ne_zero f hf ns]

/-- Demands vanish at the depot node, so summing over the non-depot
nodes of a walk equals summing over the whole walk. -/
lemma routeLbs_eq_path_sum (visits : List Visit) (p : List ℕ) :
    routeLbs visits p = (p.map (fun n => demandAt visits n)).sum := by
  unfold routeLbs routeNodes
  exact sum_map_filter_ne_zero (fun n => demandAt visits n) rfl p

/-- C3: every returned route satisfies the payload cap and the
effective driving-minutes budget, provided the solver outcome satisfies
the capacity and time dimensions it was constrained with. -/
theorem claim_C3 (dist : ℕ → ℕ → ℚ) (timeM : ℕ → ℕ → ℤ)
    (cost : ℕ → ℕ → ℤ) (visits : List Visit) (paths : List (List ℕ))
    (selfLoops : List ℕ) (r : RouteInfo)
    (hfeas : ∀ p ∈ paths,
      CapacityFeasible visits p ∧ TimeFeasible timeM visits p)
    (hr : r ∈ (solve_daily_vrp dist timeM cost visits
      (.solution paths selfLoops)).routes) :
    r.totalLbs ≤ TARGET_DAILY_PAYLOAD_LBS ∧
    r.totalMinutes ≤ EFFECTIVE_DRIVING_MINUTES := by
  by_cases hv : visits = []
  · rw [hv] at hr
    simp [solve_daily_vrp] at hr
  · have hout : solve_daily_vrp dist timeM cost visits
        (.solution paths selfLoops) =
        extractSolution dist timeM cost visits paths selfLoops := by
      simp [solve_daily_vrp, hv]
    rw [hout] at hr
    rcases mem_extract_routes.1 hr with ⟨⟨i, p⟩, hip, hsome⟩
    have hp : p ∈ paths := by
      rw [List.mem_enum_iff_getElem?] at hip
      exact List.getElem?_mem hip
    obtain ⟨hcap, hslack⟩ := hfeas p hp
    obtain ⟨-, -, hlbs, hmin, -⟩ := vehicleExtract_some hsome
    constructor
    · rw [hlbs, routeLbs_eq_path_sum]
      exact hcap
    · rw [hmin]
      obtain ⟨slack, -, hbound, hsum⟩ := hslack
      have h0 : 0 ≤ slack.sum :=
        List.sum_nonneg (fun x hx => (hbound x hx).1)
      linarith

/-- C3 witness: the kept route of the single-visit instance, with a
feasible path and explicit zero slack. -/
theorem claim_C3_witness :
    (⟨0, routeStops [exVisit] [0, 1], (routeStops [exVisit] [0, 1]).length,
      routeLbs [exVisit] [0, 1], pyRound1 (routeKm exDist [0, 1]),
      routeMinutes exTime [exVisit] [0, 1],
      routeCost exCost [0, 1] + TRUCK_FIXED_COST_SOLVER⟩ :
        RouteInfo).totalLbs ≤ TARGET_DAILY_PAYLOAD_LBS ∧
    (⟨0, routeStops [exVisit] [0, 1], (routeStops [exVisit] [0, 1]).length,
      routeLbs [exVisit] [0, 1], pyRound1 (routeKm exDist [0, 1]),
      routeMinutes exTime [exVisit] [0, 1],
      routeCost exCost [0, 1] + TRUCK_FIXED_COST_SOLVER⟩ :
        RouteInfo).totalMinutes ≤ EFFECTIVE_DRIVING_MINUTES := by
  refine claim_C3 exDist exTime exCost [exVisit] [[0, 1]] [] _ ?_ ?_
  · intro p hp
    have hp01 : p = [0, 1] := by
      simpa using hp
    subst hp01
    constructor
    · show ([0, 1].map (fun n => demandAt [exVisit] n)).sum ≤
        TARGET_DAILY_PAYLOAD_LBS
      have hd1 : demandAt [exVisit] 1 = pyRound 100 := rfl
      have hd0 : demandAt [exVisit] 0 = 0 := rfl
      have hpy : pyRound 100 = 100 := by
        norm_num [pyRound]
      simp [hd0, hd1, hpy, TARGET_DAILY_PAYLOAD_LBS]
    · exact ⟨[0, 0], rfl, by decide, by decide⟩
  · have hne : routeStops [exVisit] [0, 1] ≠ [] := by
      simp [routeStops, routeNodes]
    have hge : ¬ routeRevenueCents [exVisit] [0, 1] <
        ((routeCost exCost [0, 1] + TRUCK_FIXED_COST_SOLVER : ℤ) : ℚ) := by
      have hrev : routeRevenueCents [exVisit] [0, 1] =
          exSite.netContributionPerVisit * 100 + 0 := rfl
      have hrc : routeCost exCost [0, 1] = 0 + (0 + 0) := rfl
      rw [hrev, hrc]
      norm_num [exSite, TRUCK_FIXED_COST_SOLVER, TRUCK_FIXED_DAILY,
        TRUCK_FIXED_ANNUAL, TRUCK_LEASE_MONTHLY, INSURANCE_ANNUAL]
    have hvx : (vehicleExtract exDist exTime exCost [exVisit] 0 [0, 1]).1 =
        some ⟨0, routeStops [exVisit] [0, 1],
          (routeStops [exVisit] [0, 1]).length,
          routeLbs [exVisit] [0, 1], pyRound1 (routeKm exDist [0, 1]),
          routeMinutes exTime [exVisit] [0, 1],
          routeCost exCost [0, 1] + TRUCK_FIXED_COST_SOLVER⟩ := by
      simp only [vehicleExtract]
      rw [if_neg hne, if_neg hge]
    have hout : solve_daily_vrp exDist exTime exCost [exVisit]
        (.solution [[0, 1]] []) =
        extractSolution exDist exTime exCost [exVisit] [[0, 1]] [] := by
      simp [solve_daily_vrp]
    rw [hout]
    exact mem_extract_routes.2 ⟨(0, [0, 1]), by decide, hvx⟩

/-! ## Theorems — Depot Network Optimizer (claims C4, C5, C6, C10) -/

/-- Stable insertion permutes. -/
lemma pyInsert_perm {α : Type} (le : α → α → Bool) (a : α) (l : List α) :
    (pyInsert le a l).Perm (a :: l) := by
  induction l with
  | nil => exact List.Perm.refl _
  | cons b bs ih =>
    unfold pyInsert
    split
    · exact (ih.cons b).trans (List.Perm.swap a b bs)
    · exact List.Perm.refl _

/-- The stable sort is a permutation of its input. -/
lemma pySorted_perm {α : Type} (le : α → α → Bool) (l : List α) :
    (pySorted le l).Perm l := by
  suffices h : ∀ acc : List α,
      (l.foldl (fun acc a => pyInsert le a acc) acc).Perm (acc ++ l) by
    simpa using h []
  induction l with
  | nil =>
    intro acc
    simp
  | cons a t ih =>
    intro acc
    rw [List.foldl_cons]
    refine (ih (pyInsert le a acc)).trans ?_
    refine ((pyInsert_perm le a acc).append_right t).trans ?_
    exact List.perm_middle.symm

/-- The selected closure candidate is one of the open depots' P&L
entries and is never the non-closable warehouse. -/
lemma closureCandidates_head_mem {pnl : List (String × Pnl)} {w : String}
    {wp : Pnl} {rest : List (String × Pnl)}
    (hc : closureCandidates pnl = (w, wp) :: rest) :
    (w, wp) ∈ pnl ∧ w ≠ "wh" := by
  have hmem : (w, wp) ∈ closureCandidates pnl := by
    rw [hc]
    exact List.mem_cons_self _ _
  unfold closureCandidates at hmem
  have h1 := List.mem_filter.1 hmem
  refine ⟨((pySorted_perm _ _).mem_iff).1 h1.1, by simpa using h1.2⟩

/-- In a site list with unique identifiers, filtering by one member's
identifier retains exactly that member. -/
lemma filter_id_unique (q : DSite → Bool) :
    ∀ (sites : List DSite), (sites.map (fun s => s.id)).Nodup →
      ∀ s ∈ sites,
        sites.filter (fun t => decide (t.id = s.id) && q t) =
          if q s then [s] else [] := by
  intro sites
  induction sites with
  | nil =>
    intro _ s hs
    cases hs
  | cons t ts ih =>
    intro hids s hs
    rw [List.map_cons, List.nodup_cons] at hids
    obtain ⟨htid, htail⟩ := hids
    rw [List.filter_cons]
    rcases List.mem_cons.1 hs with rfl | hs2
    · have hrest : ts.filter (fun u => decide (u.id = s.id) && q u) = [] := by
        refine List.filter_eq_nil_iff.2 (fun u hu => ?_)
        have hne : u.id ≠ s.id := by
          intro he
          exact htid (he ▸ List.mem_map_of_mem (fun v => v.id) hu)
        simp [hne]
      by_cases hq : q s = true
      · rw [if_pos (by simp [hq]), hrest, if_pos hq]
      · have hq' : q s = false := by
          simpa using hq
        rw [if_neg (by simp [hq']), hrest, if_neg (by simp [hq'])]
    · have htne : t.id ≠ s.id := by
        intro he
        refine htid ?_
        rw [he]
        exact List.mem_map_of_mem (fun v => v.id) hs2
      rw [if_neg (by simp [htne])]
      exact ih htail s hs2

/-- What `old_depots` records for a site: its pre-simulation depot when
it was reassigned, nothing otherwise. -/
lemma pyGet_oldDepots (re : List (ℕ × String)) (sites : List DSite)
    (hids : (sites.map (fun s => s.id)).Nodup) (s : DSite)
    (hs : s ∈ sites) :
    pyGet (closureOldDepots sites re) s.id =
      if (pyGet re s.id).isSome then some s.depot else none := by
  have hfil : (closureOldDepots sites re).filter
      (fun p => p.1 = s.id) =
      (if (pyGet re s.id).isSome then [s] else []).map
        (fun t => (t.id, t.depot)) := by
    unfold closureOldDepots
    rw [List.map_filter, List.filter_filter]
    have hkey := filter_id_unique (fun t => (pyGet re t.id).isSome)
      sites hids s hs
    rw [← hkey]
    rfl
  have hdef : pyGet (closureOldDepots sites re) s.id =
      ((closureOldDepots sites re).filter
        (fun p => p.1 = s.id)).getLast?.map (fun p => p.2) := rfl
  rw [hdef, hfil]
  by_cases hq : (pyGet re s.id).isSome
  · rw [if_pos hq, if_pos hq]
    rfl
  · rw [if_neg hq, if_neg hq]
    rfl

/-- Reverting the recorded old assignments undoes the simulated
reassignment exactly (unique site identifiers). -/
lemma revert_apply (sites : List DSite) (re : List (ℕ × String))
    (hids : (sites.map (fun s => s.id)).Nodup) :
    revertReassignments (applyReassignments sites re)
      (closureOldDepots sites re) = sites := by
  unfold revertReassignments applyReassignments
  rw [List.map_map]
  conv_rhs => rw [← List.map_id sites]
  refine List.map_congr_left (fun s hs => ?_)
  have hold := pyGet_oldDepots re sites hids s hs
  obtain ⟨sid, sdep, sc, swv, srv, slv⟩ := s
  simp only [Function.comp_apply, id_eq]
  cases hre : pyGet re sid with
  | none =>
    rw [hre] at hold
    simp only [Option.isSome_none, Bool.false_eq_true, if_false] at hold
    simp only [hre, hold]
  | some nd =>
    rw [hre] at hold
    simp only [Option.isSome_some, if_true] at hold
    simp only [hre, hold]

/-- A halting step preserves the closed map, P&L snapshot and profit. -/
lemma closureStep_halt_closed {distKm : ℕ → String → ℚ}
    {depots : List (String × DepotInfo)} {dists : ℕ → List (String × ℚ)}
    {st stOut : SelState}
    (h : closureStep distKm depots dists st = .halt stOut) :
    stOut.closed = st.closed ∧ stOut.pnl = st.pnl ∧
    stOut.profit = st.profit := by
  unfold closureStep at h
  rcases hc : closureCandidates st.pnl with _ | ⟨⟨w, wp⟩, rest⟩
  · rw [hc] at h
    simp only [closureStepAux] at h
    rw [StepResult.halt.injEq] at h
    subst h
    exact ⟨rfl, rfl, rfl⟩
  · rw [hc] at h
    simp only [closureStepAux] at h
    split at h
    · simp at h
    · rw [StepResult.halt.injEq] at h
      subst h
      exact ⟨rfl, rfl, rfl⟩

/-- A halting step leaves the same set of open depots (up to
permutation), provided every P&L entry belongs to an open depot. -/
lemma closureStep_halt_opens {distKm : ℕ → String → ℚ}
    {depots : List (String × DepotInfo)} {dists : ℕ → List (String × ℚ)}
    {st stOut : SelState}
    (h : closureStep distKm depots dists st = .halt stOut)
    (hkeys : ∀ kp ∈ st.pnl, kp.1 ∈ st.opens) :
    stOut.opens.Perm st.opens := by
  unfold closureStep at h
  rcases hc : closureCandidates st.pnl with _ | ⟨⟨w, wp⟩, rest⟩
  · rw [hc] at h
    simp only [closureStepAux] at h
    rw [StepResult.halt.injEq] at h
    subst h
    exact List.Perm.refl _
  · rw [hc] at h
    simp only [closureStepAux] at h
    split at h
    · simp at h
    · rw [StepResult.halt.injEq] at h
      subst h
      have hw : w ∈ st.opens :=
        hkeys _ (closureCandidates_head_mem hc).1
      exact (List.perm_cons_erase hw).symm

/-- A halting step returns the site list unchanged (a rejected
simulation is fully reverted). -/
lemma closureStep_halt_sites {distKm : ℕ → String → ℚ}
    {depots : List (String × DepotInfo)} {dists : ℕ → List (String × ℚ)}
    {st stOut : SelState}
    (h : closureStep distKm depots dists st = .halt stOut)
    (hids : (st.sites.map (fun s => s.id)).Nodup) :
    stOut.sites = st.sites := by
  unfold closureStep at h
  rcases hc : closureCandidates st.pnl with _ | ⟨⟨w, wp⟩, rest⟩
  · rw [hc] at h
    simp only [closureStepAux] at h
    rw [StepResult.halt.injEq] at h
    subst h
    rfl
  · rw [hc] at h
    simp only [closureStepAux] at h
    split at h
    · simp at h
    · rw [StepResult.halt.injEq] at h
      subst h
      exact revert_apply st.sites _ hids

/-- Every entry of a freshly computed P&L snapshot belongs to an open
depot. -/
lemma computeNetworkProfit_keys (distKm : ℕ → String → ℚ)
    (depots : List (String × DepotInfo)) (opens : List String)
    (sites : List DSite) :
    ∀ kp ∈ (computeNetworkProfit distKm depots opens sites).2,
      kp.1 ∈ opens := by
  intro kp hkp
  unfold computeNetworkProfit at hkp
  obtain ⟨dk, hdk, heq⟩ := List.mem_map.1 hkp
  rw [← heq]
  exact hdk

/-- A committing step strictly increases profit, never commits the
warehouse, removes the committed depot from the open set, appends
exactly one closure reason, and keeps its P&L keyed by open depots. -/
lemma closureStep_commit_facts {distKm : ℕ → String → ℚ}
    {depots : List (String × DepotInfo)} {dists : ℕ → List (String × ℚ)}
    {st : SelState} {w : String} {stOut : SelState}
    (h : closureStep distKm depots dists st = .commit w stOut) :
    st.profit < stOut.profit ∧ w ≠ "wh" ∧ (∃ wp, (w, wp) ∈ st.pnl) ∧
    stOut.opens = st.opens.erase w ∧
    (∃ reason, stOut.closed = st.closed ++ [(w, reason)]) ∧
    (∀ kp ∈ stOut.pnl, kp.1 ∈ stOut.opens) := by
  unfold closureStep at h
  rcases hc : closureCandidates st.pnl with _ | ⟨⟨w', wp'⟩, rest⟩
  · rw [hc] at h
    simp only [closureStepAux] at h
    simp at h
  · rw [hc] at h
    simp only [closureStepAux] at h
    split at h
    · rename_i hlt
      rw [StepResult.commit.injEq] at h
      obtain ⟨hw, hst⟩ := h
      subst hw
      subst hst
      have hhead := closureCandidates_head_mem hc
      exact ⟨hlt, hhead.2, ⟨wp', hhead.1⟩, rfl, ⟨_, rfl⟩,
        computeNetworkProfit_keys distKm depots _ _⟩
    · simp at h

/-- Any property preserved by both halting and committing steps is an
invariant of the closure loop. -/
lemma closureLoop_invariant {distKm : ℕ → String → ℚ}
    {depots : List (String × DepotInfo)} {dists : ℕ → List (String × ℚ)}
    (P : SelState → Prop)
    (hhalt : ∀ st stOut,
      closureStep distKm depots dists st = .halt stOut → P st → P stOut)
    (hcommit : ∀ st w stOut,
      closureStep distKm depots dists st = .commit w stOut →
        P st → P stOut) :
    ∀ (fuel : ℕ) (st : SelState), P st →
      P (closureLoop distKm depots dists fuel st) := by
  intro fuel
  induction fuel with
  | zero =>
    intro st h
    exact h
  | succ fuel ih =>
    intro st h
    unfold closureLoop
    rcases hs : closureStep distKm depots dists st with stOut | ⟨w, stNext⟩
    · exact hhalt st stOut hs h
    · exact ih stNext (hcommit st w stNext hs h)

/-- C4: a closure is committed only when the recomputed network profit
strictly exceeds the profit before it (a halting iteration adds
nothing to the closed map), and the non-closable main warehouse is
never in the closed set returned by `select_depots`. -/
theorem claim_C4 :
    (∀ (distKm : ℕ → String → ℚ) (depots : List (String × DepotInfo))
        (dists : ℕ → List (String × ℚ)) (st : SelState),
      match closureStep distKm depots dists st with
      | .commit w stOut => st.profit < stOut.profit ∧ w ≠ "wh"
      | .halt stOut => stOut.closed = st.closed) ∧
    (∀ (distKm : ℕ → String → ℚ) (sites : List DSite)
        (depots : List (String × DepotInfo)),
      "wh" ∉ (select_depots distKm sites depots).closed.map
        (fun p => p.1)) := by
  constructor
  · intro distKm depots dists st
    rcases hs : closureStep distKm depots dists st with stOut | ⟨w, stOut⟩
    · exact (closureStep_halt_closed hs).1
    · obtain ⟨h1, h2, -⟩ := closureStep_commit_facts hs
      exact ⟨h1, h2⟩
  · intro distKm sites depots
    simp only [select_depots]
    refine closureLoop_invariant
      (fun st => "wh" ∉ st.closed.map (fun p => p.1)) ?_ ?_ _ _ ?_
    · intro st stOut hs hP
      show "wh" ∉ stOut.closed.map (fun p => p.1)
      rw [(closureStep_halt_closed hs).1]
      exact hP
    · intro st w stOut hs hP
      show "wh" ∉ stOut.closed.map (fun p => p.1)
      obtain ⟨-, hw, -, -, ⟨reason, hcl⟩, -⟩ :=
        closureStep_commit_facts hs
      rw [hcl, List.map_append]
      intro hmem
      rcases List.mem_append.1 hmem with hmem1 | hmem1
      · exact hP hmem1
      · have hww : "wh" = w := by
          simpa using hmem1
        exact hw hww.symm
    · show "wh" ∉ (([] : List (String × String)).map (fun p => p.1))
      simp

/-- `_estimate_depot_pnl` on an empty site list returns the all-zero
record (fixed cost included). -/
lemma estimateDepotPnl_nil (distKm : ℕ → String → ℚ) (dk : String)
    (info : DepotInfo) :
    estimateDepotPnl distKm dk info [] = ⟨dk, 0, 0, 0, 0, 0, 0⟩ := by
  unfold estimateDepotPnl
  rw [if_pos rfl]

/-- The network total is the sum over open depots of the estimate on
the sites assigned to each. -/
lemma computeNetworkProfit_fst (distKm : ℕ → String → ℚ)
    (depots : List (String × DepotInfo)) (opens : List String)
    (sites : List DSite) :
    (computeNetworkProfit distKm depots opens sites).1 =
      (opens.map (fun dk => (estimateDepotPnl distKm dk
        ((pyGet depots dk).getD default)
        (sites.filter (fun s => s.depot = dk))).netProfit)).sum := by
  show ((opens.map (fun dk => (dk, estimateDepotPnl distKm dk
      ((pyGet depots dk).getD default)
      (getSitesByDepot opens sites dk)))).map
        (fun p => p.2.netProfit)).sum = _
  rw [List.map_map]
  refine congrArg List.sum (List.map_congr_left fun dk hdk => ?_)
  show (estimateDepotPnl distKm dk _
      (getSitesByDepot opens sites dk)).netProfit = _
  unfold getSitesByDepot
  rw [if_pos hdk]

/-- Removing an open depot with no assigned sites leaves the estimated
network profit unchanged. -/
lemma networkProfit_erase_empty (distKm : ℕ → String → ℚ)
    (depots : List (String × DepotInfo)) (opens : List String)
    (sites : List DSite) (w : String) (hmem : w ∈ opens)
    (hempty : sites.filter (fun s => s.depot = w) = []) :
    (computeNetworkProfit distKm depots (opens.erase w) sites).1 =
      (computeNetworkProfit distKm depots opens sites).1 := by
  rw [computeNetworkProfit_fst, computeNetworkProfit_fst]
  have hperm : opens.Perm (w :: opens.erase w) :=
    List.perm_cons_erase hmem
  rw [(hperm.map _).sum_eq, List.map_cons, List.sum_cons, hempty,
    estimateDepotPnl_nil]
  simp

/-- C5 (amended): an open depot with no assigned sites is estimated
with zero revenue, zero variable cost and also zero fixed cost, hence
zero net profit; consequently, when such a depot is the evaluated
closure candidate, the simulated closure leaves network profit
unchanged, so the closure is rejected (no closed-map entry is added),
not committed. -/
theorem claim_C5 :
    (∀ (distKm : ℕ → String → ℚ) (dk : String) (info : DepotInfo),
      estimateDepotPnl distKm dk info [] = ⟨dk, 0, 0, 0, 0, 0, 0⟩) ∧
    (∀ (distKm : ℕ → String → ℚ) (depots : List (String × DepotInfo))
        (dists : ℕ → List (String × ℚ)) (st : SelState)
        (w : String) (wp : Pnl) (rest : List (String × Pnl)),
      closureCandidates st.pnl = (w, wp) :: rest →
      st.sites.filter (fun s => s.depot = w) = [] →
      w ∈ st.opens →
      st.profit =
        (computeNetworkProfit distKm depots st.opens st.sites).1 →
      match closureStep distKm depots dists st with
      | .halt stOut => stOut.closed = st.closed
      | .commit _ _ => False) := by
  constructor
  · exact estimateDepotPnl_nil
  · intro distKm depots dists st w wp rest hcand hempty hmem hprof
    have haff : getSitesByDepot st.opens st.sites w = [] := by
      unfold getSitesByDepot
      rw [if_pos hmem, hempty]
    have hre : closureReassignments dists st.opens st.sites w = [] := by
      unfold closureReassignments
      rw [haff]
      rfl
    have happ : applyReassignments st.sites
        (closureReassignments dists st.opens st.sites w) = st.sites := by
      rw [hre]
      unfold applyReassignments
      have hid : ∀ s : DSite,
          (match pyGet ([] : List (ℕ × String)) s.id with
            | some nd => { s with depot := nd }
            | none => s) = s := fun s => rfl
      rw [List.map_congr_left (fun s _ => hid s)]
      exact List.map_id' st.sites
    have hnp : (computeNetworkProfit distKm depots (st.opens.erase w)
        (applyReassignments st.sites
          (closureReassignments dists st.opens st.sites w))).1 =
        st.profit := by
      rw [happ, networkProfit_erase_empty distKm depots st.opens st.sites
        w hmem hempty, ← hprof]
    have hnlt : ¬ st.profit < (computeNetworkProfit distKm depots
        (st.opens.erase w)
        (applyReassignments st.sites
          (closureReassignments dists st.opens st.sites w))).1 := by
      rw [hnp]
      exact lt_irrefl _
    unfold closureStep
    rw [hcand]
    simp only [closureStepAux]
    rw [if_neg hnlt]

/-- C5 counterexample: the claim as stated is false on the code — a
depot with one truck and no assigned sites is estimated with zero
fixed cost and zero (not strictly negative) net profit. -/
theorem claim_C5_counterexample :
    (estimateDepotPnl exDistKm "barrie" ⟨1, true⟩ []).fixedCost = 0 ∧
    ¬ (estimateDepotPnl exDistKm "barrie" ⟨1, true⟩ []).netProfit < 0 := by
  rw [estimateDepotPnl_nil]
  exact ⟨rfl, lt_irrefl 0⟩

/-- C5 witness: the all-zero candidate depot of `exState` is rejected,
leaving the closed map unchanged. -/
theorem claim_C5_witness :
    estimateDepotPnl exDistKm "barrie" ⟨1, true⟩ [] =
      ⟨"barrie", 0, 0, 0, 0, 0, 0⟩ ∧
    (match closureStep exDistKm exDepots exDists exState with
      | .halt stOut => stOut.closed = exState.closed
      | .commit _ _ => False) := by
  refine ⟨claim_C5.1 exDistKm "barrie" ⟨1, true⟩, ?_⟩
  refine claim_C5.2 exDistKm exDepots exDists exState "a"
    (exZeroPnl "a") [] rfl rfl (by simp [exState]) ?_
  simp [exState, computeNetworkProfit, estimateDepotPnl, getSitesByDepot]

/-- C6: whenever an iteration halts (in particular when the simulated
closure does not strictly improve profit and is reverted), the loop
terminates with that state, and the state is unchanged: same sites
(assignments fully reverted), same closed map, same P&L snapshot, same
profit, and the same open-depot set up to permutation. -/
theorem claim_C6 (distKm : ℕ → String → ℚ)
    (depots : List (String × DepotInfo)) (dists : ℕ → List (String × ℚ))
    (st stOut : SelState) (fuel : ℕ)
    (hids : (st.sites.map (fun s => s.id)).Nodup)
    (hkeys : ∀ kp ∈ st.pnl, kp.1 ∈ st.opens)
    (hstep : closureStep distKm depots dists st = .halt stOut) :
    closureLoop distKm depots dists (fuel + 1) st = stOut ∧
    stOut.sites = st.sites ∧ stOut.closed = st.closed ∧
    stOut.pnl = st.pnl ∧ stOut.profit = st.profit ∧
    stOut.opens.Perm st.opens := by
  obtain ⟨h1, h2, h3⟩ := closureStep_halt_closed hstep
  refine ⟨?_, closureStep_halt_sites hstep hids, h1, h2, h3,
    closureStep_halt_opens hstep hkeys⟩
  unfold closureLoop
  rw [hstep]

/-- C6 witness: the all-zero candidate of `exState` is rejected and
the loop halts with the state otherwise unchanged. -/
theorem claim_C6_witness :
    closureLoop exDistKm exDepots exDists 1 exState = exHalt ∧
    exHalt.sites = exState.sites ∧ exHalt.closed = exState.closed ∧
    exHalt.pnl = exState.pnl ∧ exHalt.profit = exState.profit ∧
    exHalt.opens.Perm exState.opens := by
  refine claim_C6 exDistKm exDepots exDists exState exHalt 0
    (by simp [exState]) (by intro kp hkp; simp [exState] at hkp; simp [exState, hkp]) ?_
  unfold closureStep
  rw [show closureCandidates exState.pnl = ("a", exZeroPnl "a") :: [] from rfl]
  simp only [closureStepAux]
  rw [if_neg ?hnot]
  case hnot =>
    simp [exState, applyReassignments, closureReassignments,
      getSitesByDepot, computeNetworkProfit, estimateDepotPnl]
  simp [exState, exHalt, applyReassignments, closureReassignments,
    getSitesByDepot, closureOldDepots, revertReassignments]

/-- C10: `select_depots` partitions the depot keys — the returned open
set and the closed map's keys are disjoint and together are exactly
the input depots (each closed one carrying a reason string by
construction of the closed map). -/
theorem claim_C10 (distKm : ℕ → String → ℚ) (sites : List DSite)
    (depots : List (String × DepotInfo))
    (hnd : (depots.map (fun p => p.1)).Nodup) :
    ((select_depots distKm sites depots).opens ++
      (select_depots distKm sites depots).closed.map
        (fun p => p.1)).Perm (depots.map (fun p => p.1)) ∧
    (∀ k ∈ (select_depots distKm sites depots).opens,
      k ∉ (select_depots distKm sites depots).closed.map
        (fun p => p.1)) := by
  have hinv : ((select_depots distKm sites depots).opens ++
      (select_depots distKm sites depots).closed.map
        (fun p => p.1)).Perm (depots.map (fun p => p.1)) ∧
      (∀ kp ∈ (select_depots distKm sites depots).pnl,
        kp.1 ∈ (select_depots distKm sites depots).opens) := by
    simp only [select_depots]
    refine closureLoop_invariant
      (fun st =>
        (st.opens ++ st.closed.map (fun p => p.1)).Perm
          (depots.map (fun p => p.1)) ∧
        (∀ kp ∈ st.pnl, kp.1 ∈ st.opens)) ?_ ?_ _ _ ?init
    case init =>
      constructor
      · show ((depots.map (fun p => p.1)) ++
          (([] : List (String × String)).map (fun p => p.1))).Perm
            (depots.map (fun p => p.1))
        simp
      · exact computeNetworkProfit_keys distKm depots _ sites
    · intro st stOut hs hP
      have hop := closureStep_halt_opens hs hP.2
      obtain ⟨hc, hpnl, -⟩ := closureStep_halt_closed hs
      constructor
      · show (stOut.opens ++ stOut.closed.map (fun p => p.1)).Perm _
        rw [hc]
        exact (hop.append_right _).trans hP.1
      · intro kp hkp
        rw [hpnl] at hkp
        exact hop.mem_iff.2 (hP.2 kp hkp)
    · intro st w stOut hs hP
      obtain ⟨-, -, ⟨wp, hwp⟩, hopens, ⟨reason, hcl⟩, hpnl⟩ :=
        closureStep_commit_facts hs
      have hw : w ∈ st.opens := hP.2 _ hwp
      refine ⟨?_, hpnl⟩
      show (stOut.opens ++ stOut.closed.map (fun p => p.1)).Perm _
      rw [hcl, List.map_append, hopens]
      have e1 : (st.opens.erase w ++
          (st.closed.map (fun p => p.1) ++ [w])).Perm
          (st.opens.erase w ++
            ([w] ++ st.closed.map (fun p => p.1))) :=
        List.Perm.append_left _ List.perm_append_comm
      refine e1.trans ?_
      rw [← List.append_assoc]
      have e2 : (st.opens.erase w ++ [w]).Perm (w :: st.opens.erase w) :=
        List.perm_append_comm
      refine (e2.append_right _).trans ?_
      exact ((List.perm_cons_erase hw).symm.append_right _).trans hP.1
  refine ⟨hinv.1, ?_⟩
  intro k hk hk2
  have hnodup : ((select_depots distKm sites depots).opens ++
      (select_depots distKm sites depots).closed.map
        (fun p => p.1)).Nodup := hinv.1.symm.nodup hnd
  rw [List.nodup_append] at hnodup
  exact hnodup.2.2 hk hk2

/-- C10 witness: two depots, no sites. -/
theorem claim_C10_witness :
    ((select_depots exDistKm [] exDepots).opens ++
      (select_depots exDistKm [] exDepots).closed.map
        (fun p => p.1)).Perm (exDepots.map (fun p => p.1)) ∧
    (∀ k ∈ (select_depots exDistKm [] exDepots).opens,
      k ∉ (select_depots exDistKm [] exDepots).closed.map
        (fun p => p.1)) :=
  claim_C10 exDistKm [] exDepots (by decide)

/-! ## Theorems — Profitability Evaluator (claim C9) -/

/-- C9 (amended): the post-solve per-depot report prices driver time
flat — driver cost is exactly the depot's driven hours times the wage,
with no overtime surcharge; the overtime surcharge exists only in the
network-wide weekly summary, where, for a nonempty fleet, the driver
total equals base pay on all hours plus the half-wage overtime premium
on the hours exceeding the weekly threshold times the fleet size
(total hours spread evenly across the whole fleet). -/
theorem claim_C9 :
    (∀ (weekly : List (List (String × DayStats))) (dk : String),
      (depotPnlEntry weekly dk).driverCost =
        (depotPnlEntry weekly dk).hours * DRIVER_WAGE_PER_HOUR) ∧
    (∀ (totalHours : ℚ) (fleet : ℕ), 0 < fleet →
      weeklySummaryDriverTotal totalHours fleet =
        totalHours * DRIVER_WAGE_PER_HOUR +
          max 0 (totalHours - OT_WEEKLY_THRESHOLD_HOURS * fleet) *
            (DRIVER_WAGE_PER_HOUR * (OT_MULTIPLIER - 1))) := by
  constructor
  · intro weekly dk
    rfl
  · intro h f hf
    have hf0 : (0 : ℚ) < f := by
      exact_mod_cast hf
    have hfne : (f : ℚ) ≠ 0 := ne_of_gt hf0
    unfold weeklySummaryDriverTotal
    rw [if_pos hf]
    rcases le_or_lt (h / f) OT_WEEKLY_THRESHOLD_HOURS with hle | hgt
    · have hb : h ≤ OT_WEEKLY_THRESHOLD_HOURS * f := by
        rw [div_le_iff₀ hf0] at hle
        linarith
      have h1 : h / (f : ℚ) - OT_WEEKLY_THRESHOLD_HOURS ≤ 0 := by
        linarith
      have h2 : h - OT_WEEKLY_THRESHOLD_HOURS * (f : ℚ) ≤ 0 := by
        linarith
      simp only [max_eq_left h1, max_eq_left h2]
      ring
    · have hb : OT_WEEKLY_THRESHOLD_HOURS * f < h := by
        rw [lt_div_iff₀ hf0] at hgt
        linarith
      have h1 : 0 ≤ h / (f : ℚ) - OT_WEEKLY_THRESHOLD_HOURS := by
        linarith
      have h2 : 0 ≤ h - OT_WEEKLY_THRESHOLD_HOURS * (f : ℚ) := by
        linarith
      simp only [max_eq_right h1, max_eq_right h2]
      field_simp
      ring

/-- C9 counterexample: at 88 driven hours on a one-truck depot, the
per-depot report prices driver time flat (2112 = 88 × 24), not with
the claimed overtime formula (2640 = 44 × 24 + 44 × 36). -/
theorem claim_C9_counterexample :
    (depotPnlEntry exWeekly "wh").driverCost ≠
      claimDepotDriverCost (depotPnlEntry exWeekly "wh").hours
        (depotPnlEntry exWeekly "wh").trucks := by
  have hcost : (depotPnlEntry exWeekly "wh").driverCost =
      ((5280 : ℤ) : ℚ) / 60 * DRIVER_WAGE_PER_HOUR := rfl
  have hhours : (depotPnlEntry exWeekly "wh").hours =
      ((5280 : ℤ) : ℚ) / 60 := rfl
  have htrucks : (depotPnlEntry exWeekly "wh").trucks = 1 := rfl
  rw [hcost, hhours, htrucks]
  norm_num [claimDepotDriverCost, DRIVER_WAGE_PER_HOUR,
    OT_WEEKLY_THRESHOLD_HOURS, OT_MULTIPLIER, max_def]

/-- C9 witness: the flat per-depot pricing at the 88-hour instance and
the weekly-summary overtime identity at 88 hours with one truck. -/
theorem claim_C9_witness :
    (depotPnlEntry exWeekly "wh").driverCost =
      (depotPnlEntry exWeekly "wh").hours * DRIVER_WAGE_PER_HOUR ∧
    weeklySummaryDriverTotal 88 1 =
      88 * DRIVER_WAGE_PER_HOUR +
        max 0 (88 - OT_WEEKLY_THRESHOLD_HOURS * ((1 : ℕ) : ℚ)) *
          (DRIVER_WAGE_PER_HOUR * (OT_MULTIPLIER - 1)) :=
  ⟨claim_C9.1 exWeekly "wh", claim_C9.2 88 1 (by norm_num)⟩

end VRP
